import Mathlib

/-!
Shallow embedding of the RC-8 virtual machine core (`src/backend/mod.rs`,
`src/backend/instruction.rs`, `src/backend/interfaces.rs`).

Machine integers are modelled as `Nat` with explicit `% 2^w` at the points
where the Rust types force wrapping (`u8`, `u16`).  Byte arrays are modelled
as total functions `Nat → Nat` updated on ranges; `Vec<u16>` (stack) is a
`List Nat` whose head is the vector's last element (push = cons, pop = head).
Rust operations that can panic (out-of-bounds slicing / indexing) return an
explicit out-of-bounds outcome instead.
-/

namespace RC8

def DISPLAY_BUFFER_HEIGHT : Nat := 32
def DISPLAY_BUFFER_WIDTH : Nat := 64
def CHARACTER_SIZE : Nat := 5
def KEY_COUNT : Nat := 16
def FONT_SIZE : Nat := CHARACTER_SIZE * KEY_COUNT
def MEMORY_PADDING : Nat := 512
def MEMORY_SIZE : Nat := 4096
def REGISTER_COUNT : Nat := 16
def STACK_SIZE : Nat := 12

/-- `Instruction(u16)` from `src/backend/instruction.rs`. -/
structure Instruction where
  word : Nat
deriving DecidableEq, Repr

/-- `Instruction::new(be_bytes: [u8; 2])`: `u16::from_be_bytes`. -/
def Instruction.new (b0 b1 : Nat) : Instruction :=
  ⟨(b0 % 256) * 256 + (b1 % 256)⟩

/-- `(self.0 >> 12) as u8`. -/
def Instruction.operator_code (i : Instruction) : Nat := i.word >>> 12

/-- `(self.0 & 0x000F) as u8`. -/
def Instruction.operand_n (i : Instruction) : Nat := i.word &&& 0x000F

/-- `(self.0 & 0x00FF) as u8`. -/
def Instruction.operand_nn (i : Instruction) : Nat := i.word &&& 0x00FF

/-- `(self.0 & 0x0FFF) as usize`. -/
def Instruction.operand_nnn (i : Instruction) : Nat := i.word &&& 0x0FFF

/-- `((self.0 & 0x0F00) >> 8) as usize`. -/
def Instruction.operand_x (i : Instruction) : Nat := (i.word &&& 0x0F00) >>> 8

/-- `((self.0 & 0x00F0) >> 4) as usize`. -/
def Instruction.operand_y (i : Instruction) : Nat := (i.word &&& 0x00F0) >>> 4

/-- `BackendErrorKind` from `src/backend/error.rs`. -/
inductive BackendErrorKind where
  | MemoryOverflow
  | ProgramInvalid
  | ProgramNotLoaded
  | StackOverflow
  | StackUnderflow
  | UnrecognizedInstruction
  | UnrecognizedSprite
deriving DecidableEq, Repr

/-- `BackendError` from `src/backend/error.rs`. -/
structure BackendError where
  instruction : Option (Nat × Option Instruction)
  kind : BackendErrorKind
deriving DecidableEq, Repr

/-- `Options` from `src/backend/interfaces.rs`. -/
structure Options where
  track_changes : Bool
  wrap_sprites : Bool
deriving DecidableEq, Repr

/-- `DisplayBuffer` from `src/backend/interfaces.rs`.  Each row of the
64-wide `Msb0` bit array is one `Nat`: pixel `(x, y)` is bit
`DISPLAY_BUFFER_WIDTH - 1 - x` of `buffer[y]`.  The `HashMap` of
last-change instants is abstracted to the list of recorded coordinates
(the wall-clock `Instant` values themselves are not representable). -/
structure DisplayBuffer where
  buffer : List Nat
  changed : List (Nat × Nat)
  dirty : Bool
  options : Options

/-- `KeyboardState([bool; KEY_COUNT])`. -/
structure KeyboardState where
  keys : List Bool
deriving DecidableEq, Repr

/-- `DisplayBuffer::clear`. -/
def DisplayBuffer.clear (db : DisplayBuffer) : DisplayBuffer :=
  { db with buffer := db.buffer.map (fun _ => 0), dirty := true }

/-- The inner per-bit loop of `DisplayBuffer::draw` (`for (x, bit) in
byte.into_bitarray::<Msb0>() ...`): processes the remaining `fuel` bits
of `byte` starting at bit index `x`, threading the target row, the
change list and the collision flag.  When wrapping is off the loop
stops after processing the pixel in the last column. -/
def drawBits (wrap track : Bool) (x0 cy byte : Nat) :
    Nat → Nat → Nat → List (Nat × Nat) → Bool → Nat × List (Nat × Nat) × Bool
  | 0, _, row, ch, col => (row, ch, col)
  | fuel + 1, x, row, ch, col =>
    let cx := (x0 + x) % DISPLAY_BUFFER_WIDTH
    let bit := byte.testBit (7 - x)
    let pixel := row.testBit (DISPLAY_BUFFER_WIDTH - 1 - cx)
    let col' := if bit then (col || pixel) else col
    let ch' := if bit && pixel && track then (cx, cy) :: ch else ch
    let row' := if bit then row ^^^ (1 <<< (DISPLAY_BUFFER_WIDTH - 1 - cx)) else row
    if wrap = false ∧ cx = DISPLAY_BUFFER_WIDTH - 1 then (row', ch', col')
    else drawBits wrap track x0 cy byte fuel (x + 1) row' ch' col'

/-- The outer per-sprite-byte loop of `DisplayBuffer::draw`
(`for (y, byte) in sprite.iter().enumerate() ...`).  When wrapping is
off the loop stops after processing the bottom row. -/
def drawRows (wrap track : Bool) (x0 y0 : Nat) :
    List Nat → Nat → List Nat → List (Nat × Nat) → Bool →
      List Nat × List (Nat × Nat) × Bool
  | [], _, buf, ch, col => (buf, ch, col)
  | byte :: rest, y, buf, ch, col =>
    let cy := (y0 + y) % DISPLAY_BUFFER_HEIGHT
    let r := drawBits wrap track x0 cy byte 8 0 (buf.getD cy 0) ch col
    let buf' := buf.set cy r.1
    if wrap = false ∧ cy = DISPLAY_BUFFER_HEIGHT - 1 then (buf', r.2.1, r.2.2)
    else drawRows wrap track x0 y0 rest (y + 1) buf' r.2.1 r.2.2

/-- `DisplayBuffer::draw`.  Returns the collision flag together with the
updated buffer. -/
def DisplayBuffer.draw (db : DisplayBuffer) (coordinates : Nat × Nat)
    (sprite : List Nat) : Bool × DisplayBuffer :=
  let c0 := coordinates.1 % DISPLAY_BUFFER_WIDTH
  let c1 := coordinates.2 % DISPLAY_BUFFER_HEIGHT
  let r := drawRows db.options.wrap_sprites db.options.track_changes c0 c1
    sprite 0 db.buffer db.changed false
  (r.2.2, { db with buffer := r.1, changed := r.2.1, dirty := true })

/-- `DisplayBuffer::new`. -/
def DisplayBuffer.new (options : Options) : DisplayBuffer :=
  { buffer := List.replicate DISPLAY_BUFFER_HEIGHT 0
    changed := []
    dirty := false
    options := options }

/-- `KeyboardState::new`. -/
def KeyboardState.new : KeyboardState :=
  ⟨List.replicate KEY_COUNT false⟩

/-- `KeyboardState::hold`: `self.0[key] = true` indexes the array
directly, so a key index out of range is a panic; the panic is modelled
as `none`. -/
def KeyboardState.hold (ks : KeyboardState) (key : Nat) : Option KeyboardState :=
  if key < ks.keys.length then some ⟨ks.keys.set key true⟩ else none

/-- `KeyboardState::release`: `self.0[key] = false`, panic modelled as
`none`. -/
def KeyboardState.release (ks : KeyboardState) (key : Nat) : Option KeyboardState :=
  if key < ks.keys.length then some ⟨ks.keys.set key false⟩ else none

/-- `KeyboardState::pressed`: `self.0.get(key).copied().unwrap_or(false)`. -/
def KeyboardState.pressed (ks : KeyboardState) (key : Nat) : Bool :=
  ks.keys.getD key false

/-- `Iterator::position` on a list of flags, counting from `i`:
returns the index of the first `true`. -/
def positionFrom : List Bool → Nat → Option Nat
  | [], _ => none
  | b :: rest, i => if b then some i else positionFrom rest (i + 1)

/-- `KeyboardState::pressed_key`: `self.0.iter().position(|pressed| *pressed)`. -/
def KeyboardState.pressed_key (ks : KeyboardState) : Option Nat :=
  positionFrom ks.keys 0

/-- `Registers` from `src/backend/mod.rs`; the 16-entry `u8` array is a
total function on indices. -/
structure Registers where
  address : Nat
  general : Nat → Nat

/-- `Timers` from `src/backend/mod.rs`. -/
structure Timers where
  delay : Nat
  sound : Nat
deriving DecidableEq, Repr

/-- `Backend` from `src/backend/mod.rs`; `memory: [u8; MEMORY_SIZE]` is a
total function on addresses. -/
structure Backend where
  index : Nat
  loaded : Bool
  memory : Nat → Nat
  registers : Registers
  stack : List Nat
  timers : Timers

/-- Pointwise array update. -/
def upd (f : Nat → Nat) (i v : Nat) : Nat → Nat :=
  fun j => if j = i then v else f j

/-- `copy_from_slice` onto the index range `[start, start + len)`. -/
def writeRange (f : Nat → Nat) (start len : Nat) (src : Nat → Nat) : Nat → Nat :=
  fun j => if start ≤ j ∧ j < start + len then src (j - start) else f j

/-- Modelled from the spec: `defaults::FONT`, the default character font
(a fixed `[u8; FONT_SIZE]` constant whose defining module is not part of
the covered sources; only its existence and size matter here, no claim
depends on its byte values). -/
def defaultFONT : Nat → Nat := fun _ => 0

/-- `Backend::new`. -/
def Backend.new : Backend :=
  { index := MEMORY_PADDING
    loaded := false
    memory := fun _ => 0
    registers := { address := 0, general := fun _ => 0 }
    stack := []
    timers := { delay := 0, sound := 0 } }

/-- `Backend::load`. -/
def Backend.load (b : Backend) (font : Option (Nat → Nat)) (program : List Nat) :
    Except BackendError Backend :=
  if program.length > MEMORY_SIZE - MEMORY_PADDING ∨ program.length % 2 ≠ 0 then
    .error ⟨none, .ProgramInvalid⟩
  else
    let mem0 := if b.loaded then (fun _ => 0) else b.memory
    let mem1 := writeRange mem0 0 FONT_SIZE (fun j => (font.getD defaultFONT) j % 256)
    let mem2 := writeRange mem1 MEMORY_PADDING program.length
      (fun j => program.getD j 0 % 256)
    .ok { b with memory := mem2, loaded := true }

/-- `Backend::reset`.  The source assigns `timers.delay = 0` twice and
never writes `timers.sound`. -/
def Backend.reset (b : Backend) : Backend :=
  { b with
    index := MEMORY_PADDING
    registers := { address := 0, general := fun _ => 0 }
    stack := []
    timers := { b.timers with delay := 0 } }

/-- `self.registers.general = g` (whole-array view of register writes). -/
def Backend.setGen (b : Backend) (g : Nat → Nat) : Backend :=
  { b with registers := { b.registers with general := g } }

/-- `self.registers.address = a`. -/
def Backend.setAddress (b : Backend) (a : Nat) : Backend :=
  { b with registers := { b.registers with address := a } }

/-- `self.memory = m` (whole-array view of memory writes). -/
def Backend.setMemory (b : Backend) (m : Nat → Nat) : Backend :=
  { b with memory := m }

/-- Outcome of one iteration of the batch loop in `Backend::tick`:
continue to the next iteration, `break` out of the loop, return an
error, or hit an out-of-bounds slice (a Rust panic). -/
inductive StepOut where
  | next (b : Backend) (db : DisplayBuffer) (last : Nat)
  | brk (b : Backend) (db : DisplayBuffer) (last : Nat)
  | err (e : BackendError) (b : Backend) (db : DisplayBuffer)
  | oob (b : Backend) (db : DisplayBuffer)

/-- The state carried by a `StepOut`. -/
def StepOut.backend : StepOut → Backend
  | .next b _ _ => b
  | .brk b _ _ => b
  | .err _ b _ => b
  | .oob b _ => b

/-- The `0x0` arm of the dispatch in `Backend::tick`: `00E0` clear,
`00EE` return (pop), other `0nnn` no-op. -/
def exec0 (ins : Instruction) (b : Backend) (db : DisplayBuffer) (last : Nat) :
    StepOut :=
  if ins.operand_nnn = 0x0E0 then .next b db.clear last
  else if ins.operand_nnn = 0x0EE then
    match b.stack with
    | [] => .err ⟨some (last, some ins), .StackUnderflow⟩ b db
    | address :: rest => .next { b with index := address, stack := rest } db last
  else .next b db last

/-- The `0x1`/`0x2` arm: jump, and subroutine call with the stack
capacity check (`self.index as u16` is pushed after the increment). -/
def execJump (opcode : Nat) (ins : Instruction) (b : Backend) (db : DisplayBuffer)
    (last : Nat) : StepOut :=
  if opcode = 2 then
    if b.stack.length = STACK_SIZE then
      .err ⟨some (last, some ins), .StackOverflow⟩ b db
    else
      .next { b with stack := (b.index % 65536) :: b.stack,
                     index := ins.operand_nnn } db last
  else .next { b with index := ins.operand_nnn } db last

/-- The `0x3`/`0x4`/`0x5`/`0x9` arm: conditional skips (`continue` when
the condition fails, one extra instruction width when it holds). -/
def execSkip (opcode : Nat) (ins : Instruction) (b : Backend) (db : DisplayBuffer)
    (last : Nat) : StepOut :=
  let gen := b.registers.general
  let cond :=
    if opcode = 0x3 then gen ins.operand_x = ins.operand_nn
    else if opcode = 0x4 then gen ins.operand_x ≠ ins.operand_nn
    else if opcode = 0x5 then gen ins.operand_x = gen ins.operand_y
    else gen ins.operand_x ≠ gen ins.operand_y
  if cond then .next { b with index := b.index + 2 } db last
  else .next b db last

/-- The `0x8` arm: register-register ALU operations.  In each case the
operands are read before any write; the flag register 15 is written
before the destination register `x` (so `x = 15` loses the flag). -/
def exec8 (ins : Instruction) (b : Backend) (db : DisplayBuffer) (last : Nat) :
    StepOut :=
  let gen := b.registers.general
  if ins.operand_n = 0x0 then
    .next (b.setGen (upd gen ins.operand_x (gen ins.operand_y))) db last
  else if ins.operand_n = 0x1 then
    .next (b.setGen
      (upd gen ins.operand_x (gen ins.operand_x ||| gen ins.operand_y))) db last
  else if ins.operand_n = 0x2 then
    .next (b.setGen
      (upd gen ins.operand_x (gen ins.operand_x &&& gen ins.operand_y))) db last
  else if ins.operand_n = 0x3 then
    .next (b.setGen
      (upd gen ins.operand_x (gen ins.operand_x ^^^ gen ins.operand_y))) db last
  else if ins.operand_n = 0x4 then
    let result := gen ins.operand_x + gen ins.operand_y
    .next (b.setGen (upd (upd gen 15 (if result > 255 then 1 else 0))
      ins.operand_x (result &&& 255))) db last
  else if ins.operand_n = 0x5 then
    let result := (gen ins.operand_x + 256 - gen ins.operand_y) % 256
    .next (b.setGen
      (upd (upd gen 15 (if gen ins.operand_x > gen ins.operand_y then 1 else 0))
        ins.operand_x result)) db last
  else if ins.operand_n = 0x7 then
    let result := (gen ins.operand_y + 256 - gen ins.operand_x) % 256
    .next (b.setGen
      (upd (upd gen 15 (if gen ins.operand_y > gen ins.operand_x then 1 else 0))
        ins.operand_x result)) db last
  else if ins.operand_n = 0x6 then
    let result := gen ins.operand_x >>> 1
    .next (b.setGen
      (upd (upd gen 15 (gen ins.operand_x &&& 1)) ins.operand_x result)) db last
  else if ins.operand_n = 0xE then
    let result := (gen ins.operand_x <<< 1) % 256
    .next (b.setGen
      (upd (upd gen 15 (gen ins.operand_x >>> 7)) ins.operand_x result)) db last
  else .err ⟨some (last, some ins), .UnrecognizedInstruction⟩ b db

/-- The `0xD` arm: draw an `n`-byte sprite read from
`memory[address .. address + n]`; the slice panics (out-of-bounds
outcome) when its end exceeds the memory size. -/
def execD (ins : Instruction) (b : Backend) (db : DisplayBuffer) (last : Nat) :
    StepOut :=
  let gen := b.registers.general
  if b.registers.address + ins.operand_n ≤ MEMORY_SIZE then
    let sprite := (List.range ins.operand_n).map
      (fun j => b.memory (b.registers.address + j))
    let r := db.draw (gen ins.operand_x, gen ins.operand_y) sprite
    .next (b.setGen (upd gen 15 (if r.1 then 1 else 0))) r.2 last
  else .oob b db

/-- The `0xE` arm: key-conditional skips; both sub-codes `break` the
batch. -/
def execE (ks : KeyboardState) (ins : Instruction) (b : Backend)
    (db : DisplayBuffer) (last : Nat) : StepOut :=
  let gen := b.registers.general
  if ins.operand_nn = 0x9E then
    if ks.pressed (gen ins.operand_x) then
      .brk { b with index := b.index + 2 } db last
    else .brk b db last
  else if ins.operand_nn = 0xA1 then
    if ks.pressed (gen ins.operand_x) = false then
      .brk { b with index := b.index + 2 } db last
    else .brk b db last
  else .err ⟨some (last, some ins), .UnrecognizedInstruction⟩ b db

/-- The register write of the `Fx0A` arm: `if let Some(key) =
keyboard_state.pressed_key() { ... }`. -/
def waitKeyWrite (ks : KeyboardState) (ins : Instruction) (b : Backend) : Backend :=
  match ks.pressed_key with
  | some key => b.setGen (upd b.registers.general ins.operand_x (key % 256))
  | none => b

/-- The `0xF` arm: timers, wait-for-key, address-register arithmetic,
font lookup, BCD and register dump/load. -/
def execF (ks : KeyboardState) (ins : Instruction) (b : Backend)
    (db : DisplayBuffer) (last : Nat) : StepOut :=
  let gen := b.registers.general
  if ins.operand_nn = 0x07 then
    .next (b.setGen (upd gen ins.operand_x b.timers.delay)) db last
  else if ins.operand_nn = 0x0A then
    .brk { waitKeyWrite ks ins b with index := last } db last
  else if ins.operand_nn = 0x15 then
    .next { b with timers := { b.timers with delay := gen ins.operand_x } } db last
  else if ins.operand_nn = 0x18 then
    .next { b with timers := { b.timers with sound := gen ins.operand_x } } db last
  else if ins.operand_nn = 0x1E then
    .next (b.setAddress ((b.registers.address + gen ins.operand_x) &&& 0xFFF)) db last
  else if ins.operand_nn = 0x29 then
    let character_code := gen ins.operand_x
    if character_code ≥ KEY_COUNT then
      .err ⟨some (last, some ins), .UnrecognizedSprite⟩ b db
    else
      .next (b.setAddress (character_code * CHARACTER_SIZE)) db last
  else if ins.operand_nn = 0x33 then
    if b.registers.address + 2 ≥ MEMORY_SIZE then
      .err ⟨some (b.index, none), .MemoryOverflow⟩ b db
    else
      let number := gen ins.operand_x
      .next (b.setMemory
        (upd (upd (upd b.memory b.registers.address ((number / 10) / 10))
            (b.registers.address + 1) ((number / 10) % 10))
          (b.registers.address + 2) (number % 10))) db last
  else if ins.operand_nn = 0x55 then
    if b.registers.address + ins.operand_x ≥ MEMORY_SIZE then
      .err ⟨some (b.index, none), .MemoryOverflow⟩ b db
    else
      .next (b.setMemory
        (writeRange b.memory b.registers.address (ins.operand_x + 1) gen)) db last
  else if ins.operand_nn = 0x65 then
    if b.registers.address + ins.operand_x ≥ MEMORY_SIZE then
      .err ⟨some (b.index, none), .MemoryOverflow⟩ b db
    else
      .next (b.setGen (writeRange gen 0 (ins.operand_x + 1)
        (fun j => b.memory (b.registers.address + j)))) db last
  else .err ⟨some (last, some ins), .UnrecognizedInstruction⟩ b db

/-- The operator-code dispatch of `Backend::tick` (the `match
instruction.operator_code()` statement), applied to the state whose
program counter has already been advanced past the fetched word. -/
def dispatch (ks : KeyboardState) (rnd : Nat) (ins : Instruction) (b : Backend)
    (db : DisplayBuffer) (last : Nat) : StepOut :=
  let gen := b.registers.general
  if ins.operator_code = 0x0 then exec0 ins b db last
  else if ins.operator_code = 0x1 ∨ ins.operator_code = 0x2 then
    execJump ins.operator_code ins b db last
  else if ins.operator_code = 0x3 ∨ ins.operator_code = 0x4 ∨
      ins.operator_code = 0x5 ∨ ins.operator_code = 0x9 then
    execSkip ins.operator_code ins b db last
  else if ins.operator_code = 0x6 then
    .next (b.setGen (upd gen ins.operand_x ins.operand_nn)) db last
  else if ins.operator_code = 0x7 then
    .next (b.setGen
      (upd gen ins.operand_x ((gen ins.operand_x + ins.operand_nn) % 256))) db last
  else if ins.operator_code = 0x8 then exec8 ins b db last
  else if ins.operator_code = 0xA then
    .next (b.setAddress ins.operand_nnn) db last
  else if ins.operator_code = 0xB then
    .next { b with index := gen 0 + ins.operand_nnn } db last
  else if ins.operator_code = 0xC then
    .next (b.setGen (upd gen ins.operand_x ((rnd % 256) &&& ins.operand_nn))) db last
  else if ins.operator_code = 0xD then execD ins b db last
  else if ins.operator_code = 0xE then execE ks ins b db last
  else if ins.operator_code = 0xF then execF ks ins b db last
  else .err ⟨some (last, some ins), .UnrecognizedInstruction⟩ b db

/-- One iteration of the `for _ in 0..n.get()` loop of `Backend::tick`:
bound-check the program counter, fetch and decode the instruction word,
advance the program counter, dispatch on the operator code.  `rnd` is
the byte the global RNG would return for this iteration's
`rand::random::<u8>()` call, if any. -/
def step (ks : KeyboardState) (rnd : Nat) (b : Backend) (db : DisplayBuffer) :
    StepOut :=
  if b.index + 1 ≥ MEMORY_SIZE then
    .err ⟨some (b.index, none), .MemoryOverflow⟩ b db
  else
    let ins := Instruction.new (b.memory b.index) (b.memory (b.index + 1))
    dispatch ks rnd ins { b with index := b.index + 2 } db b.index

/-- Outcome of the whole batch loop of `Backend::tick`. -/
inductive LoopOut where
  | done (last : Nat) (b : Backend) (db : DisplayBuffer)
  | fail (e : BackendError) (b : Backend) (db : DisplayBuffer)
  | oob (b : Backend) (db : DisplayBuffer)

/-- The state carried by a `LoopOut`. -/
def LoopOut.backend : LoopOut → Backend
  | .done _ b _ => b
  | .fail _ b _ => b
  | .oob b _ => b

/-- The batch loop of `Backend::tick`: run `step` for the remaining
budget, threading `last_index` and the RNG draw counter. -/
def loop (ks : KeyboardState) (rng : Nat → Nat) :
    Nat → Nat → Nat → Backend → DisplayBuffer → LoopOut
  | 0, _, last, b, db => .done last b db
  | k + 1, rc, _last, b, db =>
    match step ks (rng rc) b db with
    | .next b' db' l => loop ks rng k (rc + 1) l b' db'
    | .brk b' db' l => .done l b' db'
    | .err e b' db' => .fail e b' db'
    | .oob b' db' => .oob b' db'

/-- The observable component of a `tick` result: `Ok((last_index,
instruction))`, an error, or an out-of-bounds access (a Rust panic). -/
inductive TickResult where
  | ok (last : Nat) (ins : Instruction)
  | fail (e : BackendError)
  | oob
deriving DecidableEq, Repr

/-- The timer decrement at the top of `Backend::tick`; `u8::saturating_sub 1`
is truncated subtraction on `Nat`. -/
def Backend.decTimers (b : Backend) : Backend :=
  { b with timers := { delay := b.timers.delay - 1, sound := b.timers.sound - 1 } }

/-- `Backend::tick`, returning the result together with the mutated
engine state and display buffer. -/
def Backend.tick (b : Backend) (n : Nat) (db : DisplayBuffer)
    (ks : KeyboardState) (rng : Nat → Nat) :
    TickResult × Backend × DisplayBuffer :=
  if b.loaded = false then
    (.fail ⟨none, .ProgramNotLoaded⟩, b, db)
  else
    let b := b.decTimers
    match loop ks rng n 0 b.index b db with
    | .done last b' db' =>
      (.ok last (Instruction.new (b'.memory last) (b'.memory (last + 1))), b', db')
    | .fail e b' db' => (.fail e, b', db')
    | .oob b' db' => (.oob, b', db')

end RC8

namespace RC8

def db0 : DisplayBuffer := DisplayBuffer.new ⟨false, false⟩
def ks0 : KeyboardState := KeyboardState.new
def rng0 : Nat → Nat := fun _ => 0

/-- Thirteen consecutive `2nnn` call instructions, each calling the next
one: `2202 2204 ... 221A` loaded at 512. -/
def prog13 : List Nat :=
  [0x22, 0x02, 0x22, 0x04, 0x22, 0x06, 0x22, 0x08, 0x22, 0x0A, 0x22, 0x0C,
   0x22, 0x0E, 0x22, 0x10, 0x22, 0x12, 0x22, 0x14, 0x22, 0x16, 0x22, 0x18,
   0x22, 0x1A]

/-- Whether an instruction is one of the two timer-writing operations
`Fx15` / `Fx18`. -/
def timerWrite (ins : Instruction) : Bool :=
  (ins.operator_code == 0xF) &&
    ((ins.operand_nn == 0x15) || (ins.operand_nn == 0x18))

/-- The instructions executed by the batch loop: the fetch/dispatch
structure of `loop`, recording each decoded word instead of running on. -/
def loopTrace (ks : KeyboardState) (rng : Nat → Nat) :
    Nat → Nat → Backend → DisplayBuffer → List Instruction
  | 0, _, _, _ => []
  | k + 1, rc, b, db =>
    if b.index + 1 ≥ MEMORY_SIZE then []
    else
      let ins := Instruction.new (b.memory b.index) (b.memory (b.index + 1))
      match step ks (rng rc) b db with
      | .next b' db' _ => ins :: loopTrace ks rng k (rc + 1) b' db'
      | _ => [ins]

/-- A loaded engine whose whole memory is zero (`0000` decodes as a
no-op) and whose timers start at `(5, 3)`. -/
def c9b : Backend := { Backend.new with loaded := true, timers := ⟨5, 3⟩ }

/-- The cumulative xor-mask the inner loop of `draw` applies to the
target row: determined by the sprite byte, the origin column and the
wrap option alone. -/
def maskBits (wrap : Bool) (x0 byte : Nat) : Nat → Nat → Nat
  | 0, _ => 0
  | fuel + 1, x =>
    let cx := (x0 + x) % DISPLAY_BUFFER_WIDTH
    let m := if byte.testBit (7 - x)
      then 1 <<< (DISPLAY_BUFFER_WIDTH - 1 - cx) else 0
    if wrap = false ∧ cx = DISPLAY_BUFFER_WIDTH - 1 then m
    else m ^^^ maskBits wrap x0 byte fuel (x + 1)

/-- The per-row xor-masks the outer loop of `draw` applies to the
buffer, as `(row index, mask)` pairs: determined by the sprite, the
origin and the wrap option alone. -/
def maskRows (wrap : Bool) (x0 y0 : Nat) : List Nat → Nat → List (Nat × Nat)
  | [], _ => []
  | byte :: rest, y =>
    let cy := (y0 + y) % DISPLAY_BUFFER_HEIGHT
    if wrap = false ∧ cy = DISPLAY_BUFFER_HEIGHT - 1 then
      [(cy, maskBits wrap x0 byte 8 0)]
    else (cy, maskBits wrap x0 byte 8 0) :: maskRows wrap x0 y0 rest (y + 1)

/-- Xor the mask `p.2` into row `p.1` of the buffer. -/
def applyOp (buf : List Nat) (p : Nat × Nat) : List Nat :=
  buf.set p.1 (buf.getD p.1 0 ^^^ p.2)

/-- Apply a list of row masks in order. -/
def applyPairs (buf : List Nat) (l : List (Nat × Nat)) : List Nat :=
  l.foldl applyOp buf

/-- Claim C1 (refuted, code bug): the 4-byte program `AFFF D002` is valid
(even length, well under `4096 - 512` bytes) and loads successfully, yet
on the very next `tick` the `Dxyn` arm slices `memory[4095..4097]`, past
the end of the 4096-byte memory: the embedding reaches the out-of-bounds
outcome (a Rust panic), so `tick` does read outside memory bounds. -/
theorem claim1_draw_reads_out_of_bounds :
    ([0xAF, 0xFF, 0xD0, 0x02].length ≤ MEMORY_SIZE - MEMORY_PADDING ∧
      [0xAF, 0xFF, 0xD0, 0x02].length % 2 = 0) ∧
    ((Backend.new.load none [0xAF, 0xFF, 0xD0, 0x02]).toOption.map
      (fun b => (Backend.tick b 2 db0 ks0 rng0).1)) = some .oob := by decide

/-- Claim C2 (refuted, code bug): after `V0 := 7`, `V1 := 7`, executing
`8015` (V0 := V0 - V1) leaves VF = 0 although the equal-operand
subtraction borrows nothing (the source compares with strict `>`); and
after `VF := 2`, executing `8FF6` (shift right with x = 15) leaves
VF = 1 although the bit shifted out of 2 is 0 (the shift result
overwrites the flag). -/
theorem claim2_borrow_and_shift_flags :
    ((Backend.new.load none [0x60, 0x07, 0x61, 0x07, 0x80, 0x15]).toOption.map
      (fun b =>
        ((Backend.tick b 3 db0 ks0 rng0).2.1.registers.general 15,
         (Backend.tick b 3 db0 ks0 rng0).2.1.registers.general 0))) = some (0, 0) ∧
    ((Backend.new.load none [0x6F, 0x02, 0x8F, 0xF6]).toOption.map
      (fun b => (Backend.tick b 2 db0 ks0 rng0).2.1.registers.general 15))
      = some 1 := by decide

/-- Claim C3 (refuted, code bug): executing `F00A` while key 4 is
pressed stores the key in V0 but leaves the program counter at the
`Fx0A` instruction's own address 512 (the source resets `index`
unconditionally), so execution never proceeds past the instruction;
the claim requires the program counter to end up at 514. -/
theorem claim3_wait_key_pc_not_advanced :
    ((Backend.new.load none [0xF0, 0x0A]).toOption.map
      (fun b =>
        let r := Backend.tick b 1 db0 ⟨(List.replicate 16 false).set 4 true⟩ rng0
        (r.2.1.index, r.2.1.registers.general 0))) = some (512, 4) := by decide

/-- Claim C4 (refuted, code bug): `reset` on an engine whose timers are
`(delay, sound) = (3, 5)` zeroes the delay timer but leaves the sound
timer at 5 (the source assigns `timers.delay = 0` twice and never
writes `timers.sound`). -/
theorem claim4_reset_sound_timer_unchanged :
    (Backend.reset { Backend.new with timers := ⟨3, 5⟩ }).timers.sound = 5 ∧
    (Backend.reset { Backend.new with timers := ⟨3, 5⟩ }).timers.delay = 0 :=
  ⟨rfl, rfl⟩

/-- Claim C5 (refuted, code bug): the program `AFFF F033` makes `Fx33`
fail with `MemoryOverflow`, but the error carries `(516, none)` — the
already-advanced program counter and no decoded word — instead of the
faulting instruction's address 514 paired with the fetched word
`F033`. -/
theorem claim5_fx33_error_wrong_address :
    ((Backend.new.load none [0xAF, 0xFF, 0xF0, 0x33]).toOption.map
      (fun b => (Backend.tick b 2 db0 ks0 rng0).1))
      = some (.fail ⟨some (516, none), .MemoryOverflow⟩) := by decide

theorem setGen_stack (b : Backend) (g : Nat → Nat) :
    (b.setGen g).stack = b.stack := rfl

theorem setGen_timers (b : Backend) (g : Nat → Nat) :
    (b.setGen g).timers = b.timers := rfl

theorem setAddress_stack (b : Backend) (a : Nat) :
    (b.setAddress a).stack = b.stack := rfl

theorem setAddress_timers (b : Backend) (a : Nat) :
    (b.setAddress a).timers = b.timers := rfl

theorem setMemory_stack (b : Backend) (m : Nat → Nat) :
    (b.setMemory m).stack = b.stack := rfl

theorem setMemory_timers (b : Backend) (m : Nat → Nat) :
    (b.setMemory m).timers = b.timers := rfl

theorem exec0_stack (ins : Instruction) (b : Backend) (db : DisplayBuffer)
    (last : Nat) (h : b.stack.length ≤ STACK_SIZE) :
    (exec0 ins b db last).backend.stack.length ≤ STACK_SIZE := by
  simp only [exec0]
  split
  · exact h
  · split
    · cases hs : b.stack with
      | nil => exact h
      | cons address rest =>
        show rest.length ≤ STACK_SIZE
        rw [hs] at h
        simp only [List.length_cons] at h
        omega
    · exact h

theorem execJump_stack (opcode : Nat) (ins : Instruction) (b : Backend)
    (db : DisplayBuffer) (last : Nat) (h : b.stack.length ≤ STACK_SIZE) :
    (execJump opcode ins b db last).backend.stack.length ≤ STACK_SIZE := by
  simp only [execJump]
  split
  · split
    · exact h
    · rename_i hne
      show ((b.index % 65536) :: b.stack).length ≤ STACK_SIZE
      rw [show STACK_SIZE = 12 from rfl] at h hne ⊢
      simp only [List.length_cons]
      omega
  · exact h

theorem execSkip_stack (opcode : Nat) (ins : Instruction) (b : Backend)
    (db : DisplayBuffer) (last : Nat) (h : b.stack.length ≤ STACK_SIZE) :
    (execSkip opcode ins b db last).backend.stack.length ≤ STACK_SIZE := by
  simp only [execSkip]
  repeat' split
  all_goals exact h

theorem exec8_stack (ins : Instruction) (b : Backend) (db : DisplayBuffer)
    (last : Nat) (h : b.stack.length ≤ STACK_SIZE) :
    (exec8 ins b db last).backend.stack.length ≤ STACK_SIZE := by
  simp only [exec8]
  repeat' split
  all_goals exact h

theorem execD_stack (ins : Instruction) (b : Backend) (db : DisplayBuffer)
    (last : Nat) (h : b.stack.length ≤ STACK_SIZE) :
    (execD ins b db last).backend.stack.length ≤ STACK_SIZE := by
  simp only [execD]
  split <;> exact h

theorem execE_stack (ks : KeyboardState) (ins : Instruction) (b : Backend)
    (db : DisplayBuffer) (last : Nat) (h : b.stack.length ≤ STACK_SIZE) :
    (execE ks ins b db last).backend.stack.length ≤ STACK_SIZE := by
  simp only [execE]
  repeat' split
  all_goals exact h

theorem waitKeyWrite_stack (ks : KeyboardState) (ins : Instruction) (b : Backend) :
    (waitKeyWrite ks ins b).stack = b.stack := by
  unfold waitKeyWrite
  cases ks.pressed_key <;> rfl

theorem execF_stack (ks : KeyboardState) (ins : Instruction) (b : Backend)
    (db : DisplayBuffer) (last : Nat) (h : b.stack.length ≤ STACK_SIZE) :
    (execF ks ins b db last).backend.stack.length ≤ STACK_SIZE := by
  unfold execF
  dsimp only
  by_cases h07 : ins.operand_nn = 0x07
  · rw [if_pos h07]; exact h
  rw [if_neg h07]
  by_cases h0A : ins.operand_nn = 0x0A
  · rw [if_pos h0A]
    show (waitKeyWrite ks ins b).stack.length ≤ STACK_SIZE
    rw [waitKeyWrite_stack]
    exact h
  rw [if_neg h0A]
  by_cases h15 : ins.operand_nn = 0x15
  · rw [if_pos h15]; exact h
  rw [if_neg h15]
  by_cases h18 : ins.operand_nn = 0x18
  · rw [if_pos h18]; exact h
  rw [if_neg h18]
  by_cases h1E : ins.operand_nn = 0x1E
  · rw [if_pos h1E]; exact h
  rw [if_neg h1E]
  by_cases h29 : ins.operand_nn = 0x29
  · rw [if_pos h29]; split <;> exact h
  rw [if_neg h29]
  by_cases h33 : ins.operand_nn = 0x33
  · rw [if_pos h33]; split <;> exact h
  rw [if_neg h33]
  by_cases h55 : ins.operand_nn = 0x55
  · rw [if_pos h55]; split <;> exact h
  rw [if_neg h55]
  by_cases h65 : ins.operand_nn = 0x65
  · rw [if_pos h65]; split <;> exact h
  rw [if_neg h65]
  exact h

theorem dispatch_stack (ks : KeyboardState) (rnd : Nat) (ins : Instruction)
    (b : Backend) (db : DisplayBuffer) (last : Nat)
    (h : b.stack.length ≤ STACK_SIZE) :
    (dispatch ks rnd ins b db last).backend.stack.length ≤ STACK_SIZE := by
  unfold dispatch
  dsimp only
  by_cases c0 : ins.operator_code = 0x0
  · rw [if_pos c0]; exact exec0_stack _ _ _ _ h
  rw [if_neg c0]
  by_cases c12 : ins.operator_code = 0x1 ∨ ins.operator_code = 0x2
  · rw [if_pos c12]; exact execJump_stack _ _ _ _ _ h
  rw [if_neg c12]
  by_cases c34 : ins.operator_code = 0x3 ∨ ins.operator_code = 0x4 ∨
      ins.operator_code = 0x5 ∨ ins.operator_code = 0x9
  · rw [if_pos c34]; exact execSkip_stack _ _ _ _ _ h
  rw [if_neg c34]
  by_cases c6 : ins.operator_code = 0x6
  · rw [if_pos c6]; exact h
  rw [if_neg c6]
  by_cases c7 : ins.operator_code = 0x7
  · rw [if_pos c7]; exact h
  rw [if_neg c7]
  by_cases c8 : ins.operator_code = 0x8
  · rw [if_pos c8]; exact exec8_stack _ _ _ _ h
  rw [if_neg c8]
  by_cases cA : ins.operator_code = 0xA
  · rw [if_pos cA]; exact h
  rw [if_neg cA]
  by_cases cB : ins.operator_code = 0xB
  · rw [if_pos cB]; exact h
  rw [if_neg cB]
  by_cases cC : ins.operator_code = 0xC
  · rw [if_pos cC]; exact h
  rw [if_neg cC]
  by_cases cD : ins.operator_code = 0xD
  · rw [if_pos cD]; exact execD_stack _ _ _ _ h
  rw [if_neg cD]
  by_cases cE : ins.operator_code = 0xE
  · rw [if_pos cE]; exact execE_stack _ _ _ _ _ h
  rw [if_neg cE]
  by_cases cF : ins.operator_code = 0xF
  · rw [if_pos cF]; exact execF_stack _ _ _ _ _ h
  rw [if_neg cF]
  exact h

theorem step_stack_le (ks : KeyboardState) (rnd : Nat) (b : Backend)
    (db : DisplayBuffer) (h : b.stack.length ≤ STACK_SIZE) :
    (step ks rnd b db).backend.stack.length ≤ STACK_SIZE := by
  simp only [step]
  split
  · exact h
  · exact dispatch_stack _ _ _ _ _ _ h

theorem loop_stack_le (ks : KeyboardState) (rng : Nat → Nat) :
    ∀ (k rc last : Nat) (b : Backend) (db : DisplayBuffer),
      b.stack.length ≤ STACK_SIZE →
      (loop ks rng k rc last b db).backend.stack.length ≤ STACK_SIZE := by
  intro k
  induction k with
  | zero =>
    intro rc last b db h
    simpa [loop, LoopOut.backend] using h
  | succ k ih =>
    intro rc last b db h
    have hstep := step_stack_le ks (rng rc) b db h
    simp only [loop]
    cases hs : step ks (rng rc) b db with
    | next b' db' l =>
      rw [hs] at hstep
      exact ih (rc + 1) l b' db' hstep
    | brk b' db' l =>
      rw [hs] at hstep
      simpa [LoopOut.backend] using hstep
    | err e b' db' =>
      rw [hs] at hstep
      simpa [LoopOut.backend] using hstep
    | oob b' db' =>
      rw [hs] at hstep
      simpa [LoopOut.backend] using hstep

/-- Claim C6: starting from an empty stack, the 12 consecutive `2nnn`
calls of `prog13` succeed (stack length reaches exactly 12) and the
13th fails with `StackOverflow`; `00EE` on an empty stack fails with
`StackUnderflow`; and every `tick`, from any state whose stack length
is at most the capacity 12, returns a state whose stack length is at
most 12 (pops are handled by an explicit empty-case error, never on an
empty stack). -/
theorem claim6_stack_discipline :
    ((Backend.new.load none prog13).toOption.map
      (fun b => ((Backend.tick b 12 db0 ks0 rng0).1,
                 (Backend.tick b 12 db0 ks0 rng0).2.1.stack.length))
      = some (.ok 534 ⟨0x2218⟩, 12)) ∧
    ((Backend.new.load none prog13).toOption.map
      (fun b => (Backend.tick b 13 db0 ks0 rng0).1)
      = some (.fail ⟨some (536, some ⟨0x221A⟩), .StackOverflow⟩)) ∧
    ((Backend.new.load none [0x00, 0xEE]).toOption.map
      (fun b => (Backend.tick b 1 db0 ks0 rng0).1)
      = some (.fail ⟨some (512, some ⟨0x00EE⟩), .StackUnderflow⟩)) ∧
    (∀ (b : Backend) (n : Nat) (db : DisplayBuffer) (ks : KeyboardState)
      (rng : Nat → Nat), b.stack.length ≤ STACK_SIZE →
      (Backend.tick b n db ks rng).2.1.stack.length ≤ STACK_SIZE) := by
  refine ⟨by decide, by decide, by decide, ?_⟩
  intro b n db ks rng h
  unfold Backend.tick
  dsimp only
  split
  · exact h
  · have hl := loop_stack_le ks rng n 0 b.decTimers.index b.decTimers db h
    cases hloop : loop ks rng n 0 b.decTimers.index b.decTimers db with
    | done last bb dbb => rw [hloop] at hl; simpa [LoopOut.backend] using hl
    | fail e bb dbb => rw [hloop] at hl; simpa [LoopOut.backend] using hl
    | oob bb dbb => rw [hloop] at hl; simpa [LoopOut.backend] using hl

/-- Concrete instance of the stack invariant of C6: one tick from the
fresh engine keeps the stack length within capacity. -/
theorem claim6_stack_discipline_witness :
    (Backend.tick Backend.new 1 db0 ks0 rng0).2.1.stack.length ≤ STACK_SIZE :=
  claim6_stack_discipline.2.2.2 Backend.new 1 db0 ks0 rng0 (by decide)

set_option maxRecDepth 8192 in
/-- Claim C8: `load` fails with `ProgramInvalid` exactly when the
program is longer than `MEMORY_SIZE - MEMORY_PADDING` bytes or has odd
length; on success the engine is marked loaded, the font bytes (the
default font when none is given) occupy `[0, FONT_SIZE)`, the program
bytes sit at `MEMORY_PADDING` onward, and every other byte is zero when
a program had been loaded before, untouched otherwise. -/
theorem claim8_load_contract (b : Backend) (font : Option (Nat → Nat))
    (program : List Nat) :
    ((∃ e, b.load font program = .error e) ↔
      program.length > MEMORY_SIZE - MEMORY_PADDING ∨ program.length % 2 = 1) ∧
    (program.length > MEMORY_SIZE - MEMORY_PADDING ∨ program.length % 2 = 1 →
      b.load font program = .error ⟨none, .ProgramInvalid⟩) ∧
    (∀ b', b.load font program = .ok b' →
      b'.loaded = true ∧
      (∀ i, i < FONT_SIZE → b'.memory i = (font.getD defaultFONT) i % 256) ∧
      (∀ i, MEMORY_PADDING ≤ i → i < MEMORY_PADDING + program.length →
        b'.memory i = program.getD (i - MEMORY_PADDING) 0 % 256) ∧
      (∀ i, FONT_SIZE ≤ i → i < MEMORY_PADDING →
        b'.memory i = if b.loaded then 0 else b.memory i) ∧
      (∀ i, MEMORY_PADDING + program.length ≤ i →
        b'.memory i = if b.loaded then 0 else b.memory i)) := by
  have hF : FONT_SIZE = 80 := rfl
  have hP : MEMORY_PADDING = 512 := rfl
  have hM : MEMORY_SIZE = 4096 := rfl
  unfold Backend.load
  by_cases hc : program.length > MEMORY_SIZE - MEMORY_PADDING ∨ program.length % 2 ≠ 0
  · rw [if_pos hc]
    refine ⟨⟨fun _ => ?_, fun _ => ⟨_, rfl⟩⟩, fun _ => rfl, fun b' hb' => by cases hb'⟩
    rcases hc with hc | hc
    · exact Or.inl hc
    · exact Or.inr (by omega)
  · rw [if_neg hc]
    push_neg at hc
    obtain ⟨hc1, hc2⟩ := hc
    rw [hM, hP] at hc1
    refine ⟨⟨fun hex => ?_, fun hbad => ?_⟩, fun hbad => ?_, fun b' hb' => ?_⟩
    · obtain ⟨e, he⟩ := hex
      cases he
    · rw [hM, hP] at hbad
      omega
    · rw [hM, hP] at hbad
      omega
    · dsimp only at hb'
      injection hb' with hb
      subst hb
      refine ⟨rfl, fun i hi => ?_, fun i hi1 hi2 => ?_, fun i hi1 hi2 => ?_,
        fun i hi => ?_⟩
      · rw [hF] at hi
        dsimp only
        rw [hF, hP]
        simp only [writeRange]
        rw [if_neg (by omega), if_pos (by constructor <;> omega)]
        simp
      · rw [hP] at hi1 hi2
        dsimp only
        rw [hF, hP]
        simp only [writeRange]
        rw [if_pos (by constructor <;> omega)]
      · rw [hF] at hi1
        rw [hP] at hi2
        dsimp only
        rw [hF, hP]
        simp only [writeRange]
        rw [if_neg (by omega), if_neg (by omega)]
        cases hl : b.loaded <;> simp
      · rw [hP] at hi
        dsimp only
        rw [hF, hP]
        simp only [writeRange]
        rw [if_neg (by omega), if_neg (by omega)]
        cases hl : b.loaded <;> simp

/-- Concrete instance of C8: loading an odd-length (1-byte) program
fails with `ProgramInvalid`. -/
theorem claim8_load_contract_witness :
    Backend.new.load none [0x00] = .error ⟨none, .ProgramInvalid⟩ :=
  (claim8_load_contract Backend.new none [0x00]).2.1 (by decide)

theorem positionFrom_some : ∀ (l : List Bool) (i k : Nat),
    positionFrom l i = some k →
    i ≤ k ∧ k - i < l.length ∧ l.getD (k - i) false = true ∧
      ∀ j, j < k - i → l.getD j false = false := by
  intro l
  induction l with
  | nil => intro i k h; cases h
  | cons a rest ih =>
    intro i k h
    unfold positionFrom at h
    by_cases ha : a = true
    · rw [if_pos ha] at h
      injection h with h
      subst h
      refine ⟨Nat.le_refl i, by simp [Nat.sub_self], by simp [Nat.sub_self, ha],
        fun j hj => absurd hj (by simp [Nat.sub_self])⟩
    · rw [if_neg ha] at h
      obtain ⟨h1, h2, h3, h4⟩ := ih (i + 1) k h
      have hik : i < k := Nat.lt_of_succ_le h1
      have hsub : k - i = (k - (i + 1)) + 1 := by omega
      refine ⟨Nat.le_of_lt hik, ?_, ?_, ?_⟩
      · simp only [List.length_cons]
        omega
      · rw [hsub]
        simpa using h3
      · intro j hj
        cases j with
        | zero => simpa using Bool.eq_false_iff.mpr ha
        | succ j' =>
          rw [hsub] at hj
          simpa using h4 j' (Nat.lt_of_succ_lt_succ hj)

theorem positionFrom_none : ∀ (l : List Bool) (i : Nat),
    positionFrom l i = none ↔ ∀ j, l.getD j false = false := by
  intro l
  induction l with
  | nil => intro i; simp [positionFrom]
  | cons a rest ih =>
    intro i
    unfold positionFrom
    by_cases ha : a = true
    · rw [if_pos ha]
      constructor
      · intro h; cases h
      · intro h
        have := h 0
        simp [ha] at this
    · rw [if_neg ha]
      rw [ih (i + 1)]
      constructor
      · intro h j
        cases j with
        | zero => simpa using Bool.eq_false_iff.mpr ha
        | succ j' => simpa using h j'
      · intro h j
        simpa using h (j + 1)

/-- Claim C10: `pressed` is total and returns `false` for any key index
at or beyond `KEY_COUNT`; `pressed_key` returns the lowest-indexed
pressed key, or `none` exactly when no key is pressed; but `hold` and
`release` index the flag array directly, so a key index at or beyond
`KEY_COUNT` reaches the error branch (`none`, a Rust panic) while an
in-range index succeeds. -/
theorem claim10_keyboard_boundary (ks : KeyboardState)
    (hlen : ks.keys.length = KEY_COUNT) :
    (∀ key, KEY_COUNT ≤ key → ks.pressed key = false) ∧
    (∀ key, ks.pressed_key = some key →
      ks.pressed key = true ∧ ∀ j, j < key → ks.pressed j = false) ∧
    (ks.pressed_key = none ↔ ∀ key, ks.pressed key = false) ∧
    (∀ key, KEY_COUNT ≤ key → ks.hold key = none ∧ ks.release key = none) ∧
    (∀ key, key < KEY_COUNT → (ks.hold key).isSome = true ∧
      (ks.release key).isSome = true) := by
  refine ⟨?_, ?_, ?_, ?_, ?_⟩
  · intro key hk
    unfold KeyboardState.pressed
    apply List.getD_eq_default
    omega
  · intro key hk
    obtain ⟨h1, h2, h3, h4⟩ := positionFrom_some ks.keys 0 key hk
    rw [Nat.sub_zero] at h3 h4
    exact ⟨h3, fun j hj => h4 j hj⟩
  · exact positionFrom_none ks.keys 0
  · intro key hk
    unfold KeyboardState.hold KeyboardState.release
    rw [if_neg (by omega), if_neg (by omega)]
    exact ⟨rfl, rfl⟩
  · intro key hk
    unfold KeyboardState.hold KeyboardState.release
    rw [if_pos (by omega), if_pos (by omega)]
    exact ⟨rfl, rfl⟩

/-- Concrete instance of C10: on a fresh keyboard, querying key 20 is
total and false, mutating key 20 hits the error branch, and mutating
key 3 succeeds. -/
theorem claim10_keyboard_boundary_witness :
    KeyboardState.new.pressed 20 = false ∧ KeyboardState.new.hold 20 = none ∧
    (KeyboardState.new.hold 3).isSome = true :=
  ⟨(claim10_keyboard_boundary KeyboardState.new rfl).1 20 (by decide),
   ((claim10_keyboard_boundary KeyboardState.new rfl).2.2.2.1 20 (by decide)).1,
   ((claim10_keyboard_boundary KeyboardState.new rfl).2.2.2.2 3 (by decide)).1⟩

theorem exec0_timers (ins : Instruction) (b : Backend) (db : DisplayBuffer)
    (last : Nat) : (exec0 ins b db last).backend.timers = b.timers := by
  simp only [exec0]
  repeat' split
  all_goals rfl

theorem execJump_timers (opcode : Nat) (ins : Instruction) (b : Backend)
    (db : DisplayBuffer) (last : Nat) :
    (execJump opcode ins b db last).backend.timers = b.timers := by
  simp only [execJump]
  repeat' split
  all_goals rfl

theorem execSkip_timers (opcode : Nat) (ins : Instruction) (b : Backend)
    (db : DisplayBuffer) (last : Nat) :
    (execSkip opcode ins b db last).backend.timers = b.timers := by
  simp only [execSkip]
  repeat' split
  all_goals rfl

theorem exec8_timers (ins : Instruction) (b : Backend) (db : DisplayBuffer)
    (last : Nat) : (exec8 ins b db last).backend.timers = b.timers := by
  simp only [exec8]
  repeat' split
  all_goals rfl

theorem execD_timers (ins : Instruction) (b : Backend) (db : DisplayBuffer)
    (last : Nat) : (execD ins b db last).backend.timers = b.timers := by
  simp only [execD]
  split <;> rfl

theorem execE_timers (ks : KeyboardState) (ins : Instruction) (b : Backend)
    (db : DisplayBuffer) (last : Nat) :
    (execE ks ins b db last).backend.timers = b.timers := by
  simp only [execE]
  repeat' split
  all_goals rfl

theorem waitKeyWrite_timers (ks : KeyboardState) (ins : Instruction) (b : Backend) :
    (waitKeyWrite ks ins b).timers = b.timers := by
  unfold waitKeyWrite
  cases ks.pressed_key <;> rfl

theorem execF_timers (ks : KeyboardState) (ins : Instruction) (b : Backend)
    (db : DisplayBuffer) (last : Nat) (h15 : ¬ins.operand_nn = 0x15)
    (h18 : ¬ins.operand_nn = 0x18) :
    (execF ks ins b db last).backend.timers = b.timers := by
  unfold execF
  dsimp only
  by_cases h07 : ins.operand_nn = 0x07
  · rw [if_pos h07]; rfl
  rw [if_neg h07]
  by_cases h0A : ins.operand_nn = 0x0A
  · rw [if_pos h0A]
    exact waitKeyWrite_timers ks ins b
  rw [if_neg h0A]
  rw [if_neg h15, if_neg h18]
  by_cases h1E : ins.operand_nn = 0x1E
  · rw [if_pos h1E]; rfl
  rw [if_neg h1E]
  by_cases h29 : ins.operand_nn = 0x29
  · rw [if_pos h29]; split <;> rfl
  rw [if_neg h29]
  by_cases h33 : ins.operand_nn = 0x33
  · rw [if_pos h33]; split <;> rfl
  rw [if_neg h33]
  by_cases h55 : ins.operand_nn = 0x55
  · rw [if_pos h55]; split <;> rfl
  rw [if_neg h55]
  by_cases h65 : ins.operand_nn = 0x65
  · rw [if_pos h65]; split <;> rfl
  rw [if_neg h65]
  rfl

theorem dispatch_timers (ks : KeyboardState) (rnd : Nat) (ins : Instruction)
    (b : Backend) (db : DisplayBuffer) (last : Nat)
    (h : timerWrite ins = false) :
    (dispatch ks rnd ins b db last).backend.timers = b.timers := by
  unfold dispatch
  dsimp only
  by_cases c0 : ins.operator_code = 0x0
  · rw [if_pos c0]; exact exec0_timers _ _ _ _
  rw [if_neg c0]
  by_cases c12 : ins.operator_code = 0x1 ∨ ins.operator_code = 0x2
  · rw [if_pos c12]; exact execJump_timers _ _ _ _ _
  rw [if_neg c12]
  by_cases c34 : ins.operator_code = 0x3 ∨ ins.operator_code = 0x4 ∨
      ins.operator_code = 0x5 ∨ ins.operator_code = 0x9
  · rw [if_pos c34]; exact execSkip_timers _ _ _ _ _
  rw [if_neg c34]
  by_cases c6 : ins.operator_code = 0x6
  · rw [if_pos c6]; rfl
  rw [if_neg c6]
  by_cases c7 : ins.operator_code = 0x7
  · rw [if_pos c7]; rfl
  rw [if_neg c7]
  by_cases c8 : ins.operator_code = 0x8
  · rw [if_pos c8]; exact exec8_timers _ _ _ _
  rw [if_neg c8]
  by_cases cA : ins.operator_code = 0xA
  · rw [if_pos cA]; rfl
  rw [if_neg cA]
  by_cases cB : ins.operator_code = 0xB
  · rw [if_pos cB]; rfl
  rw [if_neg cB]
  by_cases cC : ins.operator_code = 0xC
  · rw [if_pos cC]; rfl
  rw [if_neg cC]
  by_cases cD : ins.operator_code = 0xD
  · rw [if_pos cD]; exact execD_timers _ _ _ _
  rw [if_neg cD]
  by_cases cE : ins.operator_code = 0xE
  · rw [if_pos cE]; exact execE_timers _ _ _ _ _
  rw [if_neg cE]
  by_cases cF : ins.operator_code = 0xF
  · rw [if_pos cF]
    simp only [timerWrite, cF, beq_self_eq_true, Bool.true_and,
      Bool.or_eq_false_iff, beq_eq_false_iff_ne, ne_eq] at h
    exact execF_timers _ _ _ _ _ h.1 h.2
  rw [if_neg cF]
  rfl

theorem step_timers (ks : KeyboardState) (rnd : Nat) (b : Backend)
    (db : DisplayBuffer)
    (h : timerWrite (Instruction.new (b.memory b.index) (b.memory (b.index + 1)))
      = false) :
    (step ks rnd b db).backend.timers = b.timers := by
  unfold step
  dsimp only
  split
  · rfl
  · exact dispatch_timers _ _ _ _ _ _ h

theorem loop_timers (ks : KeyboardState) (rng : Nat → Nat) :
    ∀ (k rc last : Nat) (b : Backend) (db : DisplayBuffer),
      (∀ ins ∈ loopTrace ks rng k rc b db, timerWrite ins = false) →
      (loop ks rng k rc last b db).backend.timers = b.timers := by
  intro k
  induction k with
  | zero => intro rc last b db _; rfl
  | succ k ih =>
    intro rc last b db h
    simp only [loop]
    simp only [loopTrace] at h
    by_cases hf : b.index + 1 ≥ MEMORY_SIZE
    · have hs : step ks (rng rc) b db
          = .err ⟨some (b.index, none), .MemoryOverflow⟩ b db := by
        unfold step
        rw [if_pos hf]
      rw [hs]
      rfl
    · rw [if_neg hf] at h
      have hw := step_timers ks (rng rc) b db
      cases hs : step ks (rng rc) b db with
      | next b' db' l =>
        rw [hs] at h
        simp only [List.mem_cons, forall_eq_or_imp] at h
        have h1 := h.1
        have h2 := h.2
        rw [ih (rc + 1) l b' db' h2]
        have := hw h1
        rw [hs] at this
        exact this
      | brk b' db' l =>
        rw [hs] at h
        simp only [List.mem_singleton, forall_eq] at h
        have := hw h
        rw [hs] at this
        exact this
      | err e b' db' =>
        rw [hs] at h
        simp only [List.mem_singleton, forall_eq] at h
        have := hw h
        rw [hs] at this
        exact this
      | oob b' db' =>
        rw [hs] at h
        simp only [List.mem_singleton, forall_eq] at h
        have := hw h
        rw [hs] at this
        exact this

/-- Claim C9: for every positive budget `n` and loaded engine, a single
`tick` decrements both timers by exactly one, saturating at zero,
independently of `n`, of early batch termination and of errors raised
after the decrement — provided no executed instruction is one of the
explicit timer writes `Fx15`/`Fx18` (which overwrite rather than
decrement). -/
theorem claim9_timer_decrement (b : Backend) (n : Nat) (db : DisplayBuffer)
    (ks : KeyboardState) (rng : Nat → Nat) (hloaded : b.loaded = true)
    (_hn : 0 < n)
    (hnw : ∀ ins ∈ loopTrace ks rng n 0 b.decTimers db, timerWrite ins = false) :
    (Backend.tick b n db ks rng).2.1.timers.delay = b.timers.delay - 1 ∧
    (Backend.tick b n db ks rng).2.1.timers.sound = b.timers.sound - 1 := by
  unfold Backend.tick
  rw [if_neg (by simp [hloaded])]
  dsimp only
  have hl := loop_timers ks rng n 0 b.decTimers.index b.decTimers db hnw
  cases hloop : loop ks rng n 0 b.decTimers.index b.decTimers db with
  | done last bb dbb =>
    rw [hloop] at hl
    exact ⟨congrArg Timers.delay hl, congrArg Timers.sound hl⟩
  | fail e bb dbb =>
    rw [hloop] at hl
    exact ⟨congrArg Timers.delay hl, congrArg Timers.sound hl⟩
  | oob bb dbb =>
    rw [hloop] at hl
    exact ⟨congrArg Timers.delay hl, congrArg Timers.sound hl⟩

/-- Concrete instance of C9: two no-op instructions under a budget of 2
decrement the timers `(5, 3)` to `(4, 2)` exactly once. -/
theorem claim9_timer_decrement_witness :
    (Backend.tick c9b 2 db0 ks0 rng0).2.1.timers.delay = 4 ∧
    (Backend.tick c9b 2 db0 ks0 rng0).2.1.timers.sound = 2 :=
  claim9_timer_decrement c9b 2 db0 ks0 rng0 rfl (by decide) (by decide)

theorem drawBits_fst (wrap track : Bool) (x0 cy byte : Nat) :
    ∀ (fuel x row : Nat) (ch : List (Nat × Nat)) (col : Bool),
      (drawBits wrap track x0 cy byte fuel x row ch col).1
        = row ^^^ maskBits wrap x0 byte fuel x := by
  intro fuel
  induction fuel with
  | zero => intro x row ch col; simp [drawBits, maskBits]
  | succ fuel ih =>
    intro x row ch col
    simp only [drawBits, maskBits]
    by_cases hbr : wrap = false ∧
        (x0 + x) % DISPLAY_BUFFER_WIDTH = DISPLAY_BUFFER_WIDTH - 1
    · rw [if_pos hbr, if_pos hbr]
      by_cases hbit : byte.testBit (7 - x) = true
      · simp [hbit]
      · simp [hbit]
    · rw [if_neg hbr, if_neg hbr]
      rw [ih]
      by_cases hbit : byte.testBit (7 - x) = true
      · simp [hbit, Nat.xor_assoc]
      · simp [hbit]

theorem drawRows_fst (wrap track : Bool) (x0 y0 : Nat) :
    ∀ (sprite : List Nat) (y : Nat) (buf : List Nat) (ch : List (Nat × Nat))
      (col : Bool),
      (drawRows wrap track x0 y0 sprite y buf ch col).1
        = applyPairs buf (maskRows wrap x0 y0 sprite y) := by
  intro sprite
  induction sprite with
  | nil => intro y buf ch col; rfl
  | cons byte rest ih =>
    intro y buf ch col
    simp only [drawRows, maskRows]
    rw [drawBits_fst]
    by_cases hbr : wrap = false ∧
        (y0 + y) % DISPLAY_BUFFER_HEIGHT = DISPLAY_BUFFER_HEIGHT - 1
    · rw [if_pos hbr, if_pos hbr]
      rfl
    · rw [if_neg hbr, if_neg hbr]
      rw [ih]
      rfl

theorem getD_set_self (l : List Nat) (c v : Nat) (h : c < l.length) :
    (l.set c v).getD c 0 = v := by
  simp [List.getD_eq_getElem?_getD, List.getElem?_set_self h]

theorem getD_set_ne (l : List Nat) (c c' v : Nat) (h : c ≠ c') :
    (l.set c v).getD c' 0 = l.getD c' 0 := by
  simp [List.getD_eq_getElem?_getD, List.getElem?_set_ne h]

theorem set_getD_self : ∀ (l : List Nat) (c : Nat), c < l.length →
    l.set c (l.getD c 0) = l := by
  intro l
  induction l with
  | nil => intro c h; cases h
  | cons a rest ih =>
    intro c h
    cases c with
    | zero => rfl
    | succ c' =>
      simp only [List.getD_cons_succ, List.set_cons_succ, List.cons.injEq, true_and]
      exact ih c' (by simpa using h)

theorem applyOp_self_inverse (buf : List Nat) (p : Nat × Nat) :
    applyOp (applyOp buf p) p = buf := by
  obtain ⟨c, m⟩ := p
  by_cases hc : c < buf.length
  · unfold applyOp
    dsimp only
    rw [getD_set_self buf c _ hc, List.set_set, Nat.xor_cancel_right,
      set_getD_self buf c hc]
  · unfold applyOp
    dsimp only
    rw [List.set_eq_of_length_le (by simp only [List.length_set]; omega),
      List.set_eq_of_length_le (by omega)]

theorem applyOp_comm (buf : List Nat) (p q : Nat × Nat) :
    applyOp (applyOp buf p) q = applyOp (applyOp buf q) p := by
  obtain ⟨c1, m1⟩ := p
  obtain ⟨c2, m2⟩ := q
  by_cases hc : c1 = c2
  · subst hc
    by_cases hlt : c1 < buf.length
    · unfold applyOp
      dsimp only
      rw [getD_set_self buf c1 _ hlt, getD_set_self buf c1 _ hlt,
        List.set_set, List.set_set]
      have : buf.getD c1 0 ^^^ m1 ^^^ m2 = buf.getD c1 0 ^^^ m2 ^^^ m1 := by
        rw [Nat.xor_assoc, Nat.xor_assoc, Nat.xor_comm m1 m2]
      rw [this]
    · unfold applyOp
      dsimp only
      rw [List.set_eq_of_length_le (by simp only [List.length_set]; omega),
        List.set_eq_of_length_le (by omega),
        List.set_eq_of_length_le (by simp only [List.length_set]; omega),
        List.set_eq_of_length_le (by omega)]
  · unfold applyOp
    dsimp only
    rw [getD_set_ne buf c1 c2 _ hc, getD_set_ne buf c2 c1 _ (fun hx => hc hx.symm),
      List.set_comm _ _ _ hc]

theorem applyOp_applyPairs_comm :
    ∀ (l : List (Nat × Nat)) (buf : List Nat) (p : Nat × Nat),
      applyOp (applyPairs buf l) p = applyPairs (applyOp buf p) l := by
  intro l
  induction l with
  | nil => intro buf p; rfl
  | cons q rest ih =>
    intro buf p
    show applyOp (applyPairs (applyOp buf q) rest) p
      = applyPairs (applyOp (applyOp buf p) q) rest
    rw [ih, applyOp_comm]

theorem applyPairs_involution :
    ∀ (l : List (Nat × Nat)) (buf : List Nat),
      applyPairs (applyPairs buf l) l = buf := by
  intro l
  induction l with
  | nil => intro buf; rfl
  | cons p rest ih =>
    intro buf
    show applyPairs (applyOp (applyPairs (applyOp buf p) rest) p) rest = buf
    rw [applyOp_applyPairs_comm, applyOp_self_inverse, ih]

theorem drawBits_zero_col (wrap track : Bool) (x0 cy : Nat) :
    ∀ (fuel x row : Nat) (ch : List (Nat × Nat)) (col : Bool),
      (drawBits wrap track x0 cy 0 fuel x row ch col).2.2 = col := by
  intro fuel
  induction fuel with
  | zero => intro x row ch col; rfl
  | succ fuel ih =>
    intro x row ch col
    simp only [drawBits, Nat.zero_testBit]
    simp only [Bool.false_eq_true, if_false, Bool.false_and, and_false]
    split
    · rfl
    · exact ih (x + 1) row ch col

theorem drawRows_zero_col (wrap track : Bool) (x0 y0 : Nat) :
    ∀ (sprite : List Nat), (∀ v ∈ sprite, v = 0) →
      ∀ (y : Nat) (buf : List Nat) (ch : List (Nat × Nat)) (col : Bool),
        (drawRows wrap track x0 y0 sprite y buf ch col).2.2 = col := by
  intro sprite
  induction sprite with
  | nil => intro _ y buf ch col; rfl
  | cons byte rest ih =>
    intro hz y buf ch col
    have hb : byte = 0 := hz byte (List.mem_cons_self byte rest)
    subst hb
    simp only [drawRows]
    split
    · exact drawBits_zero_col wrap track x0 _ 8 0 (buf.getD _ 0) ch col
    · rw [ih (fun v hv => hz v (List.mem_cons_of_mem _ hv)) (y + 1)]
      exact drawBits_zero_col wrap track x0 _ 8 0 (buf.getD _ 0) ch col

/-- Claim C7: an all-zero sprite never reports a collision, whatever
the buffer state; and drawing the same nonzero sprite twice in a row at
the same coordinates restores the buffer bit state (double-XOR
idempotence), under both wrap and clip options. -/
theorem claim7_draw_algebra :
    (∀ (db : DisplayBuffer) (coords : Nat × Nat) (sprite : List Nat),
      (∀ v ∈ sprite, v = 0) → (db.draw coords sprite).1 = false) ∧
    (∀ (db : DisplayBuffer) (coords : Nat × Nat) (sprite : List Nat),
      (∃ v ∈ sprite, v ≠ 0) →
      ((db.draw coords sprite).2.draw coords sprite).2.buffer = db.buffer) := by
  constructor
  · intro db coords sprite hz
    unfold DisplayBuffer.draw
    dsimp only
    exact drawRows_zero_col _ _ _ _ sprite hz 0 db.buffer db.changed false
  · intro db coords sprite _
    unfold DisplayBuffer.draw
    dsimp only
    rw [drawRows_fst, drawRows_fst]
    exact applyPairs_involution _ db.buffer

/-- Concrete instance of C7: on a fresh buffer, a two-row zero sprite
collides with nothing, and drawing the one-pixel sprite `[0x80]` twice
at `(1, 2)` leaves the buffer as it started. -/
theorem claim7_draw_algebra_witness :
    (db0.draw (3, 5) [0, 0]).1 = false ∧
    ((db0.draw (1, 2) [0x80]).2.draw (1, 2) [0x80]).2.buffer = db0.buffer :=
  ⟨claim7_draw_algebra.1 db0 (3, 5) [0, 0] (by decide),
   claim7_draw_algebra.2 db0 (1, 2) [0x80] (by decide)⟩

end RC8
